import Mathlib

/-!
Verification of the NJUIS-Students/Resources repository scripts:
`ai_rename_exam_docs.py` (exam-document classification/renaming pipeline)
and `scripts/path_validity_checker.py` (repository path checker).

The Python code is shallowly embedded: strings are Lean `String`s (Python
`str.split`, `str.strip`, slicing and regex searches are modelled as
executable functions on `List Char`), Python floats that carry JSON numbers
are modelled as `ℚ`, dictionaries as association lists, and Python
exceptions (`KeyError`, `TypeError`) as explicit error constructors.
-/

namespace PathCheck

/-- Model of Python `str.split('/')`: splits a character list at every `'/'`,
keeping empty pieces, and yields `[[]]` on the empty string. -/
def splitSlash : List Char → List (List Char)
  | [] => [[]]
  | c :: rest =>
    match splitSlash rest with
    | [] => [[]]
    | p :: ps => if c = '/' then [] :: p :: ps else (c :: p) :: ps

/-- After at least one `[^/]` character has been consumed, the regex piece
`[^/]+/` either finishes at the next `'/'` (and hands over to `cont`) or
consumes one more non-`'/'` character. The character classes are disjoint,
so no backtracking is needed. -/
def segRest (cont : List Char → Bool) : List Char → Bool
  | [] => false
  | c :: rest => if c = '/' then cont rest else segRest cont rest

/-- Model of matching the anchored regex piece `^[^/]+/` followed by the
continuation `cont`. -/
def segHead (cont : List Char → Bool) : List Char → Bool
  | [] => false
  | c :: rest => if c = '/' then false else segRest cont rest

/-- Tail of `exam_pattern1` after `^[^/]+/试卷/`:
`(期中|期末)-\d{4}-\d{4}学年第(一|二)学期` (no end anchor, `re.match`). -/
def examTail1 : List Char → Bool
  | '期' :: c :: '-' :: d1 :: d2 :: d3 :: d4 :: '-' :: e1 :: e2 :: e3 :: e4 ::
      '学' :: '年' :: '第' :: t :: '学' :: '期' :: _ =>
    (c = '中' || c = '末') &&
    ([d1, d2, d3, d4, e1, e2, e3, e4].all Char.isDigit) &&
    (t = '一' || t = '二')
  | _ => false

/-- Tail of `exam_pattern2` after `^[^/]+/试卷/`: `(期中|期末)-([0-9\-])级`. -/
def examTail2 : List Char → Bool
  | '期' :: c :: '-' :: g :: '级' :: _ =>
    (c = '中' || c = '末') && (g.isDigit || g = '-')
  | _ => false

/-- `re.match(exam_pattern1, s)` as a Boolean:
`^[^/]+/试卷/(期中|期末)-\d{4}-\d{4}学年第(一|二)学期`. -/
def exam1Match (s : List Char) : Bool :=
  segHead (fun rest =>
    match rest with
    | '试' :: '卷' :: '/' :: r => examTail1 r
    | _ => false) s

/-- `re.match(exam_pattern2, s)` as a Boolean:
`^[^/]+/试卷/(期中|期末)-([0-9\-])级`. -/
def exam2Match (s : List Char) : Bool :=
  segHead (fun rest =>
    match rest with
    | '试' :: '卷' :: '/' :: r => examTail2 r
    | _ => false) s

/-- The directories skipped by the checker: `['.git', '.github', 'script']`. -/
def skipDirs : List (List Char) :=
  [".git".toList, ".github".toList, "script".toList]

/-- Outcome of one `checker` call. Python declares `tuple[bool, str]`;
`typeError` models the uncaught `TypeError` raised by
`re.match(r'\d{4}(春|秋)')`, which is called with only the pattern
argument and no string argument. -/
inductive CheckResult
  | ret (valid : Bool) (reason : String)
  | typeError
deriving DecidableEq

/-- Model of `checker(file_path)` from `scripts/path_validity_checker.py`.
Only the branches up to the `elif re.match(r'\d{4}(春|秋)'):` line are
reachable; evaluating that condition raises `TypeError`, modelled by
`CheckResult.typeError`, so the later `len == 2` and `else` branches are
dead code. -/
def checker (file_path : String) : CheckResult :=
  let sp := splitSlash file_path.toList
  if sp.length < 2 ∨ sp.headD [] ∈ skipDirs then
    .ret true "跳过"
  else if sp.getD 1 [] = "试卷".toList then
    if exam1Match (sp.getLastD []) then .ret true "试卷"
    else if exam2Match (sp.getLastD []) then .ret true "试卷"
    else .ret false ("试卷命名 " ++ String.mk (sp.getLastD []) ++ " 不符合规范")
  else if sp.getD 1 [] = "笔记".toList then
    .ret true "课程笔记"
  else
    .typeError

end PathCheck

namespace AiRename

/-- A JSON leaf value as the pipeline reads it: the five classification
fields are strings or numbers; Python floats from `json.loads` are
modelled as rationals. -/
inductive JVal
  | jstr (s : String)
  | jnum (q : ℚ)
deriving DecidableEq

/-- A parsed JSON document as returned by `json.loads`: either a JSON
object (a Python `dict`, modelled as an association list with the textual
key order) or some non-dict value (array, string, number, ...), which the
pipeline only ever inspects through `isinstance(ai_result, dict)` and
truthiness. -/
inductive PyVal
  | dict (d : List (String × JVal))
  | nondict
deriving DecidableEq

/-- Python dict lookup (`d[k]` / `d.get(k)`), first matching key. -/
def dictGet (d : List (String × JVal)) (k : String) : Option JVal :=
  match d with
  | [] => none
  | (k', v) :: rest => if k' = k then some v else dictGet rest k

/-- `sub` is an initial segment of the second list. -/
def listStartsWith : List Char → List Char → Bool
  | [], _ => true
  | _ :: _, [] => false
  | a :: as, b :: bs => a = b && listStartsWith as bs

/-- Python substring containment `sub in s` on character lists. -/
def listHasSub (sub : List Char) : List Char → Bool
  | [] => listStartsWith sub []
  | c :: rest => listStartsWith sub (c :: rest) || listHasSub sub rest

/-- Python `sub in s` on strings. -/
def strHasSub (s sub : String) : Bool :=
  listHasSub sub.toList s.toList

/-- Drop leading whitespace characters. -/
def stripLeading : List Char → List Char
  | [] => []
  | c :: rest => if c.isWhitespace then stripLeading rest else c :: rest

/-- Python `str.strip()`: remove leading and trailing whitespace. -/
def pyStrip (s : String) : String :=
  String.mk ((stripLeading (stripLeading s.toList).reverse).reverse)

/-- Python `str.lower()` (ASCII case folding suffices for the
comparisons the source makes). -/
def pyLower (s : String) : String :=
  String.mk (s.toList.map Char.toLower)

/-- `re.search(r'(\d{4})年', s)`: the leftmost occurrence of four digits
immediately followed by `年`; returns the captured digit characters.
`\d` is modelled as an ASCII digit. -/
def findYearTok : List Char → Option (List Char)
  | [] => none
  | c :: rest =>
    match c :: rest with
    | a :: b :: c2 :: d :: e :: _ =>
      if a.isDigit && b.isDigit && c2.isDigit && d.isDigit && e = '年' then
        some [a, b, c2, d]
      else findYearTok rest
    | _ => none

/-- `re.search(r'(\d{4})-(\d{4})', s)`: the leftmost occurrence of four
digits, `-`, four digits; returns the two captured digit groups. -/
def findAcadYear : List Char → Option (List Char × List Char)
  | [] => none
  | c :: rest =>
    match c :: rest with
    | a :: b :: c2 :: d :: h :: e :: f :: g :: k :: _ =>
      if a.isDigit && b.isDigit && c2.isDigit && d.isDigit && h = '-' &&
          e.isDigit && f.isDigit && g.isDigit && k.isDigit then
        some ([a, b, c2, d], [e, f, g, k])
      else findAcadYear rest
    | _ => none

/-- The `exam_type` block of `fallback_rule_engine`: `期中` when the text
or the filename contains `期中`, else the default `期末`. -/
def ruleExamType (text_content file_name : String) : String :=
  if strHasSub text_content "期中" || strHasSub file_name "期中" then "期中"
  else "期末"

/-- The `semester` block of `fallback_rule_engine`: searches
`text_content + file_name` for a `(\d{4})年` token; when found, prefers a
`(\d{4})-(\d{4})` academic-year range over the bare year, then appends a
season suffix when `春`/`春季` or `秋`/`秋季` occurs. -/
def ruleSemester (text_content file_name : String) : String :=
  let combined := (text_content ++ file_name).toList
  match findYearTok combined with
  | none => "未知学期"
  | some year =>
    let base :=
      match findAcadYear combined with
      | some (a, b) => String.mk a ++ "-" ++ String.mk b
      | none => String.mk year
    if listHasSub "春季".toList combined || listHasSub "春".toList combined then
      base ++ "春季"
    else if listHasSub "秋季".toList combined || listHasSub "秋".toList combined then
      base ++ "秋季"
    else base

/-- The `has_answer` block of `fallback_rule_engine`: `带答案` when any of
the fixed keywords occurs in `text_content + file_name`, else `无答案`. -/
def ruleHasAnswer (text_content file_name : String) : String :=
  let combined := (text_content ++ file_name).toList
  if ["答案", "参考答案", "解答", "-ans", "含答案", "ans"].any
      (fun kw => listHasSub kw.toList combined) then "带答案"
  else "无答案"

/-- Model of `fallback_rule_engine(text_content, file_name)`: the returned
Python dict with its five keys in source order; `confidence` is the fixed
`0.5`. -/
def fallback_rule_engine (text_content file_name : String) :
    List (String × JVal) :=
  [("exam_type", .jstr (ruleExamType text_content file_name)),
   ("semester", .jstr (ruleSemester text_content file_name)),
   ("has_answer", .jstr (ruleHasAnswer text_content file_name)),
   ("confidence", .jnum (mkRat 1 2)),
   ("reasoning", .jstr "规则引擎备选方案")]

/-- Python `s.rsplit('.', 1)` when `s` contains a dot: splits at the last
`.`, returning the part before and the part after it. Returns `none` when
`s` has no dot (in the source that case would raise `IndexError` at
`name_parts[1]`; it is unreachable because every constructed name ends in
`.pdf`). -/
def rsplitDot : List Char → Option (List Char × List Char)
  | [] => none
  | c :: rest =>
    match rsplitDot rest with
    | some (a, b) => some (c :: a, b)
    | none => if c = '.' then some ([], rest) else none

/-- The candidate name checked at loop iteration `k` of the collision
loop: `new_name` itself for `k = 0`, else
`f"{name_parts[0]}_{k}.{name_parts[1]}"` where `name_parts` is
`new_name.rsplit('.', 1)`. -/
def candName (new_name : String) (k : Nat) : String :=
  if k = 0 then new_name
  else
    match rsplitDot new_name.toList with
    | some (a, b) => String.mk a ++ "_" ++ Nat.repr k ++ "." ++ String.mk b
    | none => new_name

/-- The `while (output_dir / final_name).exists():` loop, with the output
directory's entry set modelled as the list `existing` and the iteration
bounded by an explicit fuel (the source loop terminates because the
directory is finite). -/
def resolveLoop (existing : List String) (new_name : String) :
    Nat → Nat → String
  | k, 0 => candName new_name k
  | k, fuel + 1 =>
    if candName new_name k ∈ existing then
      resolveLoop existing new_name (k + 1) fuel
    else candName new_name k

/-- Collision resolution of `process_file_with_ai`: starting from the base
`new_name`, try `candName` for `k = 0, 1, 2, …`, re-checking existence at
each step, and return the first candidate not present in the output
directory. `existing.length + 1` steps always reach the answer whenever
some candidate with index `≤ existing.length` is free. -/
def resolveName (existing : List String) (new_name : String) : String :=
  resolveLoop existing new_name 0 (existing.length + 1)

/-- Code-fence cleanup before JSON parsing: drop the 7-character leading
marker when the content starts with it, drop the 3-character trailing
marker when the (possibly shortened) content ends with it, then strip
surrounding whitespace — `content[7:]`, `content[:-3]`, `str.strip()`. -/
def cleanup (content : String) : String :=
  let c1 :=
    if "```json".isPrefixOf content then String.mk (content.toList.drop 7)
    else content
  let c2 :=
    if listStartsWith "```".toList.reverse c1.toList.reverse then
      String.mk (c1.toList.take (c1.toList.length - 3))
    else c1
  pyStrip c2

/-- One attempt of the retry loop as seen by `call_ai_api`: either the
transport call raises (any exception from `client.chat.completions.create`)
or it yields a response content string. -/
inductive ApiAttempt
  | failure
  | response (content : String)

/-- The `for attempt in range(3)` retry loop of `call_ai_api`, with the
remote service modelled as the attempt schedule `attempts` and
`json.loads` as the oracle `parse` (`none` models `json.JSONDecodeError`).
Returns the parsed result — or `none` once the budget is exhausted —
paired with the chronological list of `time.sleep(2 ** attempt)` durations
performed. A parse failure hits `continue`, which skips the sleep sitting
in the outer `except` handler; a transport failure records `2 ^ attempt`. -/
def callFrom (parse : String → Option PyVal) (attempts : Nat → ApiAttempt) :
    Nat → Nat → Option PyVal × List Nat
  | _, 0 => (none, [])
  | i, n + 1 =>
    match attempts i with
    | .response c =>
      match parse (cleanup c) with
      | some v => (some v, [])
      | none => callFrom parse attempts (i + 1) n
    | .failure =>
      let r := callFrom parse attempts (i + 1) n
      (r.1, 2 ^ i :: r.2)

/-- Model of `call_ai_api` once endpoint and credential are configured:
three attempts starting at attempt index 0. -/
def call_ai_api (parse : String → Option PyVal)
    (attempts : Nat → ApiAttempt) : Option PyVal × List Nat :=
  callFrom parse attempts 0 3

/-- Outcome of the escalation block of `process_file_with_ai`: the
computed `use_manual` flag plus whether the interactive low-confidence
confirmation prompt was shown, or the `TypeError` Python raises when a
non-numeric `confidence` value is compared with `0.7`. -/
inductive EscalationOut
  | ok (use_manual : Bool) (asked_confirm : Bool)
  | typeError
deriving DecidableEq

/-- The `use_manual` computation of `process_file_with_ai`:
`confirm_input` is the answer the user gives to the
`是否进行人工确认? (y/N)` prompt when it is shown; the threshold `0.7` is
`mkRat 7 10`, and a missing `confidence` key defaults to `0` via
`ai_result.get('confidence', 0)`. -/
def escalationPhase (force_manual : Bool) (ai_result : Option PyVal)
    (confirm_input : String) : EscalationOut :=
  if force_manual then .ok true false
  else
    match ai_result with
    | none => .ok true false
    | some (.dict d) =>
      match (dictGet d "confidence").getD (.jnum 0) with
      | .jnum conf =>
        if conf < mkRat 7 10 then
          if pyLower (pyStrip confirm_input) = "y" then .ok true true
          else .ok false true
        else .ok false false
      | .jstr _ => .typeError
    | some .nondict => .ok true false

/-- Which tier produced the final classification result. -/
inductive FinalChoice
  | manual
  | ai
  | rule
deriving DecidableEq

/-- The final-result dispatch of `process_file_with_ai`:
`manual_intervention` when `use_manual`, else the AI value when it is
truthy (`ai_result and isinstance(ai_result, dict)` — an empty dict is
falsy), else the rule engine. Returns the chosen tier and dict. -/
def finalDispatch (use_manual : Bool) (ai_result : Option PyVal)
    (manualRes ruleRes : List (String × JVal)) :
    FinalChoice × List (String × JVal) :=
  if use_manual then (.manual, manualRes)
  else
    match ai_result with
    | some (.dict d) => if d.isEmpty then (.rule, ruleRes) else (.ai, d)
    | _ => (.rule, ruleRes)

/-- Model of `manual_intervention`: the three prompt answers are stripped
and empty input falls back to the defaults; the result always carries
`confidence = 1.0` and the fixed reasoning `人工介入`. -/
def manual_intervention (exam_type_in semester_in has_answer_in : String) :
    List (String × JVal) :=
  let exam_type := if pyStrip exam_type_in = "" then "期末" else pyStrip exam_type_in
  let semester := if pyStrip semester_in = "" then "未知学期" else pyStrip semester_in
  let has_answer :=
    if pyStrip has_answer_in = "" then "无答案" else pyStrip has_answer_in
  [("exam_type", .jstr exam_type), ("semester", .jstr semester),
   ("has_answer", .jstr has_answer), ("confidence", .jnum 1),
   ("reasoning", .jstr "人工介入")]

/-- How a field value renders inside the f-string that builds the new
name (every reachable case is a string; numbers render via `toString`). -/
def jvalStr : JVal → String
  | .jstr s => s
  | .jnum q => toString q

/-- The new-name construction of `process_file_with_ai`: reads
`exam_type`, `semester` and `has_answer` by direct dict indexing in source
order, so the first missing key raises `KeyError` (modelled as
`.error key`); then builds `f"{exam_type}-{semester}-带答案.pdf"` or
`…-无答案.pdf` according to `has_answer == "带答案"`. -/
def buildName (final : List (String × JVal)) : Except String String :=
  match dictGet final "exam_type" with
  | none => .error "exam_type"
  | some exam_type =>
    match dictGet final "semester" with
    | none => .error "semester"
    | some semester =>
      match dictGet final "has_answer" with
      | none => .error "has_answer"
      | some has_answer =>
        if has_answer = .jstr "带答案" then
          .ok (jvalStr exam_type ++ "-" ++ jvalStr semester ++ "-带答案.pdf")
        else
          .ok (jvalStr exam_type ++ "-" ++ jvalStr semester ++ "-无答案.pdf")

/-- Outcome of one run of the decision core of `process_file_with_ai`:
the final classification dict, the tier that produced it, whether the
low-confidence confirmation prompt was shown, and the collision-resolved
output name; or the uncaught Python exception (`KeyError` from the name
construction, `TypeError` from a non-numeric confidence), which only the
caller's per-file handler catches. -/
inductive ProcOut
  | ok (final : List (String × JVal)) (choice : FinalChoice)
      (asked_confirm : Bool) (final_name : String)
  | keyError (k : String)
  | typeError
deriving DecidableEq

/-- Model of the decision core of `process_file_with_ai`: from the result
`ai_result` of the classification call (`None` both on client failure and
when `force_manual` skips the call), the user's confirmation answer, the
three manual-review answers, the extracted text and filename (inputs of
the rule engine), and the output directory's entries (for collision
resolution), compute the per-file outcome. -/
def process_file_with_ai (force_manual : Bool) (ai_result : Option PyVal)
    (confirm_input exam_type_in semester_in has_answer_in : String)
    (text_content file_name : String) (existing : List String) : ProcOut :=
  match escalationPhase force_manual ai_result confirm_input with
  | .typeError => .typeError
  | .ok use_manual asked =>
    let mres := manual_intervention exam_type_in semester_in has_answer_in
    let rres := fallback_rule_engine text_content file_name
    match finalDispatch use_manual ai_result mres rres with
    | (choice, final) =>
      match buildName final with
      | .error k => .keyError k
      | .ok new_name => .ok final choice asked (resolveName existing new_name)

end AiRename

namespace PathCheck

lemma segRest_eq_false (cont : List Char → Bool) :
    ∀ l : List Char, (∀ c ∈ l, c ≠ '/') → segRest cont l = false := by
  intro l
  induction l with
  | nil => intro _; rfl
  | cons c rest ih =>
    intro h
    have hc : c ≠ '/' := h c (List.mem_cons_self c rest)
    simp only [segRest, if_neg hc]
    exact ih (fun d hd => h d (List.mem_cons_of_mem c hd))

lemma segHead_eq_false (cont : List Char → Bool) (l : List Char)
    (h : ∀ c ∈ l, c ≠ '/') : segHead cont l = false := by
  cases l with
  | nil => rfl
  | cons c rest =>
    simp only [segHead]
    by_cases hc : c = '/'
    · simp [hc]
    · simp only [if_neg hc]
      exact segRest_eq_false cont rest
        (fun d hd => h d (List.mem_cons_of_mem c hd))

lemma splitSlash_ne_nil : ∀ l : List Char, splitSlash l ≠ [] := by
  intro l
  cases l with
  | nil => simp [splitSlash]
  | cons c rest =>
    simp only [splitSlash]
    rcases h : splitSlash rest with _ | ⟨p, ps⟩
    · simp
    · by_cases hc : c = '/' <;> simp [hc]

lemma splitSlash_no_slash :
    ∀ l : List Char, ∀ part ∈ splitSlash l, ∀ c ∈ part, c ≠ '/' := by
  intro l
  induction l with
  | nil =>
    intro part hpart c hc
    simp only [splitSlash, List.mem_singleton] at hpart
    subst hpart
    exact absurd hc (List.not_mem_nil c)
  | cons a rest ih =>
    intro part hpart c hc
    rcases h : splitSlash rest with _ | ⟨p, ps⟩
    · exact absurd h (splitSlash_ne_nil rest)
    · by_cases ha : a = '/'
      · simp only [splitSlash, h, ha, if_true, List.mem_cons] at hpart
        rcases hpart with h1 | h2 | h3
        · subst h1; exact absurd hc (List.not_mem_nil c)
        · subst h2; exact ih part (h ▸ List.mem_cons_self part ps) c hc
        · exact ih part (h ▸ List.mem_cons_of_mem p h3) c hc
      · simp only [splitSlash, h, if_neg ha, List.mem_cons] at hpart
        rcases hpart with h1 | h2
        · subst h1
          rcases List.mem_cons.mp hc with h3 | h4
          · subst h3; exact ha
          · exact ih p (h ▸ List.mem_cons_self p ps) c h4
        · exact ih part (h ▸ List.mem_cons_of_mem p h2) c hc

lemma getLastD_mem {α : Type} : ∀ (l : List α) (d : α), l ≠ [] → l.getLastD d ∈ l
  | [], _, h => absurd rfl h
  | [a], d, _ => by simp [List.getLastD]
  | a :: b :: bs, d, _ => by
    have h := getLastD_mem (b :: bs) a (by simp)
    have e : (a :: b :: bs).getLastD d = (b :: bs).getLastD a := by
      simp [List.getLastD]
    rw [e]
    exact List.mem_cons_of_mem a h

/-- Claim C9: for every file path whose second component is `试卷` and whose first
component is not a skipped directory, `checker` returns invalid (`False`):
both exam-paper patterns start with `^[^/]+/试卷/` but are matched against
only the last path component, which contains no `/`, so neither can ever
match and the 试卷 branch always falls through to the rejection return. -/
theorem c9_exam_dir_rejected (p : String)
    (h2 : 2 ≤ (splitSlash p.toList).length)
    (hskip : (splitSlash p.toList).headD [] ∉ skipDirs)
    (hdir : (splitSlash p.toList).getD 1 [] = "试卷".toList) :
    checker p = .ret false
      ("试卷命名 " ++ String.mk ((splitSlash p.toList).getLastD []) ++ " 不符合规范") := by
  have hne : splitSlash p.toList ≠ [] := splitSlash_ne_nil _
  have hlast : (splitSlash p.toList).getLastD [] ∈ splitSlash p.toList :=
    getLastD_mem _ _ hne
  have hnoslash := splitSlash_no_slash p.toList _ hlast
  have hm1 : exam1Match ((splitSlash p.toList).getLastD []) = false :=
    segHead_eq_false _ _ hnoslash
  have hm2 : exam2Match ((splitSlash p.toList).getLastD []) = false :=
    segHead_eq_false _ _ hnoslash
  have hcond : ¬((splitSlash p.toList).length < 2 ∨
      (splitSlash p.toList).headD [] ∈ skipDirs) :=
    not_or.mpr ⟨Nat.not_lt.mpr h2, hskip⟩
  simp only [checker]
  rw [if_neg hcond, if_pos hdir, if_neg (by rw [hm1]; exact Bool.false_ne_true),
    if_neg (by rw [hm2]; exact Bool.false_ne_true)]

/-- Witness for C9 at a concrete repository path. -/
theorem c9_exam_dir_rejected_witness :
    checker "数学/试卷/期中考试.pdf" = .ret false "试卷命名 期中考试.pdf 不符合规范" :=
  c9_exam_dir_rejected "数学/试卷/期中考试.pdf" (by decide) (by decide) (by decide)

/-- Claim C10: `checker` is not total over its declared `tuple[bool, str]`
contract: for every path with at least two components whose first component
is not skipped and whose second component is neither `试卷` nor `笔记`,
evaluation reaches the condition `re.match(r'\d{4}(春|秋)')`, which is
called with only the pattern argument and raises `TypeError` instead of
returning a `(bool, str)` pair. -/
theorem c10_checker_type_error (p : String)
    (h2 : 2 ≤ (splitSlash p.toList).length)
    (hskip : (splitSlash p.toList).headD [] ∉ skipDirs)
    (hd1 : (splitSlash p.toList).getD 1 [] ≠ "试卷".toList)
    (hd2 : (splitSlash p.toList).getD 1 [] ≠ "笔记".toList) :
    checker p = .typeError := by
  have hcond : ¬((splitSlash p.toList).length < 2 ∨
      (splitSlash p.toList).headD [] ∈ skipDirs) :=
    not_or.mpr ⟨Nat.not_lt.mpr h2, hskip⟩
  simp only [checker]
  rw [if_neg hcond, if_neg hd1, if_neg hd2]

/-- Witness for C10 at a concrete repository path. -/
theorem c10_checker_type_error_witness :
    checker "数学/作业提交/第一次.pdf" = .typeError :=
  c10_checker_type_error "数学/作业提交/第一次.pdf"
    (by decide) (by decide) (by decide) (by decide)

end PathCheck

namespace AiRename

/-- Claim C8: the rule engine is total — it always returns a record with
the five classification keys — and on the empty text and empty filename it
returns exactly `exam_type=期末`, `semester=未知学期`, `has_answer=无答案`,
`confidence=0.5`. -/
theorem c8_rule_engine_total_and_empty :
    fallback_rule_engine "" "" =
      [("exam_type", .jstr "期末"), ("semester", .jstr "未知学期"),
       ("has_answer", .jstr "无答案"), ("confidence", .jnum (mkRat 1 2)),
       ("reasoning", .jstr "规则引擎备选方案")] ∧
    ∀ t f : String, (fallback_rule_engine t f).map Prod.fst =
      ["exam_type", "semester", "has_answer", "confidence", "reasoning"] := by
  exact ⟨by decide, fun t f => rfl⟩

/-- Claim C1 counterexample: on text `2023-2024学年第一学期 期中 含答案` with
the empty filename, the rule engine returns semester `未知学期`, not
`2023-2024`: the year search `(\d{4})年` requires four digits immediately
followed by `年`, and in this input `2024` is followed by `学`, so the
whole semester block is skipped. -/
theorem c1_counterexample :
    dictGet (fallback_rule_engine "2023-2024学年第一学期 期中 含答案" "") "semester" =
      some (.jstr "未知学期") ∧ ("未知学期" : String) ≠ "2023-2024" := by
  decide

/-- Semester block behaviour when both a `(\d{4})年` token and a
`(\d{4})-(\d{4})` range occur in `text + filename`: the semester is the
range, possibly extended by a season suffix. -/
lemma ruleSemester_acad (t f : String) (y a b : List Char)
    (hy : findYearTok (t ++ f).toList = some y)
    (hab : findAcadYear (t ++ f).toList = some (a, b)) :
    ∃ suf, ruleSemester t f = String.mk a ++ "-" ++ String.mk b ++ suf ∧
      (suf = "" ∨ suf = "春季" ∨ suf = "秋季") := by
  simp only [ruleSemester, hy, hab]
  by_cases h1 : (listHasSub "春季".toList (t ++ f).toList ||
      listHasSub "春".toList (t ++ f).toList) = true
  · rw [if_pos h1]
    exact ⟨"春季", rfl, Or.inr (Or.inl rfl)⟩
  · rw [if_neg h1]
    by_cases h2 : (listHasSub "秋季".toList (t ++ f).toList ||
        listHasSub "秋".toList (t ++ f).toList) = true
    · rw [if_pos h2]
      exact ⟨"秋季", rfl, Or.inr (Or.inr rfl)⟩
    · rw [if_neg h2]
      exact ⟨"", by simp, Or.inl rfl⟩

/-- Claim C1 amended: on text containing `2023-2024学年第一学期 期中 含答案`
(empty filename) the rule engine yields `exam_type=期中` and
`has_answer=带答案`, but `semester=未知学期`, because the year detector
demands a four-digit year immediately followed by `年`; in general,
whenever such a `(\d{4})年` token is present in `text + filename` and a
`YYYY-YYYY` academic-year token is also present, the returned semester
begins with that range, followed only by an optional season suffix
(`春季` or `秋季`). -/
theorem c1_amended_rule_engine :
    (dictGet (fallback_rule_engine "2023-2024学年第一学期 期中 含答案" "") "exam_type" =
        some (.jstr "期中") ∧
     dictGet (fallback_rule_engine "2023-2024学年第一学期 期中 含答案" "") "semester" =
        some (.jstr "未知学期") ∧
     dictGet (fallback_rule_engine "2023-2024学年第一学期 期中 含答案" "") "has_answer" =
        some (.jstr "带答案")) ∧
    ∀ (t f : String) (y a b : List Char),
      findYearTok (t ++ f).toList = some y →
      findAcadYear (t ++ f).toList = some (a, b) →
      ∃ suf, dictGet (fallback_rule_engine t f) "semester" =
          some (.jstr (String.mk a ++ "-" ++ String.mk b ++ suf)) ∧
        (suf = "" ∨ suf = "春季" ∨ suf = "秋季") := by
  refine ⟨by decide, ?_⟩
  intro t f y a b hy hab
  obtain ⟨suf, heq, hsuf⟩ := ruleSemester_acad t f y a b hy hab
  exact ⟨suf, by rw [show dictGet (fallback_rule_engine t f) "semester" =
    some (JVal.jstr (ruleSemester t f)) from rfl, heq], hsuf⟩

/-- Witness for the amended C1 at an input containing both a `\d{4}年`
token and an academic-year range. -/
theorem c1_amended_witness :
    ∃ suf, dictGet (fallback_rule_engine "2021年" "2023-2024") "semester" =
        some (.jstr (String.mk ['2', '0', '2', '3'] ++ "-" ++
          String.mk ['2', '0', '2', '4'] ++ suf)) ∧
      (suf = "" ∨ suf = "春季" ∨ suf = "秋季") :=
  c1_amended_rule_engine.2 "2021年" "2023-2024" ['2', '0', '2', '1']
    ['2', '0', '2', '3'] ['2', '0', '2', '4'] (by decide) (by decide)

lemma resolveLoop_eq (existing : List String) (new_name : String) :
    ∀ (fuel k0 k : Nat), k0 ≤ k → k < k0 + fuel →
      candName new_name k ∉ existing →
      (∀ j, k0 ≤ j → j < k → candName new_name j ∈ existing) →
      resolveLoop existing new_name k0 fuel = candName new_name k := by
  intro fuel
  induction fuel with
  | zero =>
    intro k0 k hle hlt _ _
    omega
  | succ n ih =>
    intro k0 k hle hlt hfree hbusy
    rcases Nat.eq_or_lt_of_le hle with heq | hlt0
    · subst heq
      simp only [resolveLoop, if_neg hfree]
    · have hbusy0 : candName new_name k0 ∈ existing :=
        hbusy k0 (Nat.le_refl k0) hlt0
      simp only [resolveLoop, if_pos hbusy0]
      exact ih (k0 + 1) k hlt0 (by omega) hfree
        (fun j hj1 hj2 => hbusy j (by omega) hj2)

/-- Claim C7: with `期末-未知学期-无答案.pdf` already present, resolving the
same base name yields `期末-未知学期-无答案_1.pdf`, and with both present it
yields `期末-未知学期-无答案_2.pdf`; in general the loop appends `_1`, `_2`,
… before the extension, re-checking existence each time, and returns the
first candidate that does not exist (whenever that first free index is
within the directory's size, which bounds the search). -/
theorem c7_collision_resolution :
    (resolveName ["期末-未知学期-无答案.pdf"] "期末-未知学期-无答案.pdf" =
      "期末-未知学期-无答案_1.pdf") ∧
    (resolveName ["期末-未知学期-无答案.pdf", "期末-未知学期-无答案_1.pdf"]
      "期末-未知学期-无答案.pdf" = "期末-未知学期-无答案_2.pdf") ∧
    ∀ (existing : List String) (new_name : String) (k : Nat),
      k ≤ existing.length →
      candName new_name k ∉ existing →
      (∀ j, j < k → candName new_name j ∈ existing) →
      resolveName existing new_name = candName new_name k := by
  refine ⟨by decide, by decide, ?_⟩
  intro existing new_name k hk hfree hbusy
  exact resolveLoop_eq existing new_name (existing.length + 1) 0 k
    (Nat.zero_le k) (by omega) hfree (fun j _ hj => hbusy j hj)

/-- Witness for C7's general part: both lower candidates exist, the first
free index is 2. -/
theorem c7_collision_resolution_witness :
    resolveName ["期末-未知学期-无答案.pdf", "期末-未知学期-无答案_1.pdf"]
      "期末-未知学期-无答案.pdf" = candName "期末-未知学期-无答案.pdf" 2 :=
  c7_collision_resolution.2.2
    ["期末-未知学期-无答案.pdf", "期末-未知学期-无答案_1.pdf"]
    "期末-未知学期-无答案.pdf" 2 (by decide) (by decide)
    (fun j hj => by interval_cases j <;> decide)

/-- One loop step when the attempt yields a response whose cleaned content
fails to parse: the `continue` moves to the next attempt without
recording a sleep. -/
lemma callFrom_parse_failure (parse : String → Option PyVal)
    (attempts : Nat → ApiAttempt) (i n : Nat) (c : String)
    (ha : attempts i = .response c) (hp : parse (cleanup c) = none) :
    callFrom parse attempts i (n + 1) = callFrom parse attempts (i + 1) n := by
  simp only [callFrom, ha, hp]

/-- Claim C2 counterexample: three transport failures sleep
`2^0, 2^1, 2^2` time units, but three malformed-JSON responses sleep not
at all — the `continue` in the `except json.JSONDecodeError` handler
skips the `time.sleep(2 ** attempt)` that sits in the outer exception
handler, so a malformed response is *not* treated identically to a
transport failure. -/
theorem c2_counterexample :
    call_ai_api (fun _ => none) (fun _ => .failure) = (none, [1, 2, 4]) ∧
    call_ai_api (fun _ => none) (fun _ => .response "not json") = (none, []) :=
  ⟨rfl, rfl⟩

/-- Claim C2 amended: a response whose content fails JSON parsing after
code-fence cleanup consumes one of the 3 attempts within the same retry
budget (three such responses exhaust the budget and yield `None`), but it
incurs *no* enforced wait; the `2 ^ attempt` wait is performed only on
transport/service failure. -/
theorem c2_amended_parse_no_sleep (parse : String → Option PyVal)
    (attempts : Nat → ApiAttempt)
    (h : ∀ i, i < 3 → ∃ c, attempts i = .response c ∧ parse (cleanup c) = none) :
    call_ai_api parse attempts = (none, []) ∧
    call_ai_api parse (fun _ => .failure) = (none, [1, 2, 4]) := by
  constructor
  · obtain ⟨c0, ha0, hp0⟩ := h 0 (by omega)
    obtain ⟨c1, ha1, hp1⟩ := h 1 (by omega)
    obtain ⟨c2, ha2, hp2⟩ := h 2 (by omega)
    have s1 : call_ai_api parse attempts = callFrom parse attempts 1 2 :=
      callFrom_parse_failure parse attempts 0 2 c0 ha0 hp0
    have s2 : callFrom parse attempts 1 2 = callFrom parse attempts 2 1 :=
      callFrom_parse_failure parse attempts 1 1 c1 ha1 hp1
    have s3 : callFrom parse attempts 2 1 = callFrom parse attempts 3 0 :=
      callFrom_parse_failure parse attempts 2 0 c2 ha2 hp2
    rw [s1, s2, s3]
    rfl
  · rfl

/-- Witness for the amended C2: a schedule of three unparsable responses. -/
theorem c2_amended_witness :
    call_ai_api (fun _ => none) (fun _ => .response "x") = (none, []) ∧
    call_ai_api (fun _ => none) (fun _ => .failure) = (none, [1, 2, 4]) :=
  c2_amended_parse_no_sleep (fun _ => none) (fun _ => .response "x")
    (fun _ _ => ⟨"x", rfl, rfl⟩)

/-- When the three name fields are present, the name construction
succeeds whatever their values (and whatever the other keys hold). -/
lemma buildName_fields (final : List (String × JVal)) (et sem ha : JVal)
    (h1 : dictGet final "exam_type" = some et)
    (h2 : dictGet final "semester" = some sem)
    (h3 : dictGet final "has_answer" = some ha) :
    ∃ s, buildName final = .ok s := by
  simp only [buildName, h1, h2, h3]
  by_cases h : ha = .jstr "带答案"
  · exact ⟨_, by rw [if_pos h]⟩
  · exact ⟨_, by rw [if_neg h]⟩

/-- The escalation block specialised to a present dict result. -/
lemma escalation_dict (d : List (String × JVal)) (confirm_input : String) :
    escalationPhase false (some (.dict d)) confirm_input =
      match (dictGet d "confidence").getD (.jnum 0) with
      | .jnum conf =>
        if conf < mkRat 7 10 then
          if pyLower (pyStrip confirm_input) = "y" then .ok true true
          else .ok false true
        else .ok false false
      | .jstr _ => .typeError := rfl

/-- Claim C4: every valid five-field ClassificationResult-shaped AI dict
with confidence ≥ 0.7 is, when `force_manual = false`, accepted as the
final result unchanged; the low-confidence confirmation prompt is not
shown and manual review is not invoked. -/
theorem c4_high_confidence_accepted (d : List (String × JVal))
    (et sem ha rs : String) (conf : ℚ)
    (h_et : dictGet d "exam_type" = some (.jstr et))
    (_h_et_dom : et = "期中" ∨ et = "期末")
    (h_sem : dictGet d "semester" = some (.jstr sem))
    (h_ha : dictGet d "has_answer" = some (.jstr ha))
    (_h_ha_dom : ha = "带答案" ∨ ha = "无答案")
    (h_conf : dictGet d "confidence" = some (.jnum conf))
    (_h_conf0 : 0 ≤ conf) (_h_conf1 : conf ≤ 1)
    (h_rs : dictGet d "reasoning" = some (.jstr rs))
    (h_thresh : mkRat 7 10 ≤ conf)
    (confirm met ms mh t f : String) (existing : List String) :
    ∃ nm, process_file_with_ai false (some (.dict d)) confirm met ms mh t f
      existing = .ok d .ai false nm := by
  have hesc : escalationPhase false (some (.dict d)) confirm = .ok false false := by
    rw [escalation_dict, h_conf]
    simp only [Option.getD_some]
    rw [if_neg (not_lt.mpr h_thresh)]
  have hdf : d.isEmpty = false := by
    cases d with
    | nil => rw [show dictGet [] "exam_type" = none from rfl] at h_et; cases h_et
    | cons a l => rfl
  have hdisp : ∀ mres rres, finalDispatch false (some (.dict d)) mres rres =
      (.ai, d) := by
    intro mres rres
    simp only [finalDispatch, hdf, Bool.false_eq_true, if_false]
  obtain ⟨s, hs⟩ := buildName_fields d _ _ _ h_et h_sem h_ha
  refine ⟨resolveName existing s, ?_⟩
  simp only [process_file_with_ai, hesc, hdisp, hs]

/-- Witness for C4 at a concrete well-formed high-confidence AI result. -/
theorem c4_witness :
    ∃ nm, process_file_with_ai false (some (.dict
      [("exam_type", JVal.jstr "期中"), ("semester", JVal.jstr "2023-2024"),
       ("has_answer", JVal.jstr "带答案"), ("confidence", JVal.jnum (mkRat 9 10)),
       ("reasoning", JVal.jstr "标题明确")])) "n" "" "" "" "文本" "文件" [] =
      .ok [("exam_type", JVal.jstr "期中"), ("semester", JVal.jstr "2023-2024"),
       ("has_answer", JVal.jstr "带答案"), ("confidence", JVal.jnum (mkRat 9 10)),
       ("reasoning", JVal.jstr "标题明确")] .ai false nm :=
  c4_high_confidence_accepted
    [("exam_type", JVal.jstr "期中"), ("semester", JVal.jstr "2023-2024"),
     ("has_answer", JVal.jstr "带答案"), ("confidence", JVal.jnum (mkRat 9 10)),
     ("reasoning", JVal.jstr "标题明确")]
    "期中" "2023-2024" "带答案" "标题明确" (mkRat 9 10)
    rfl (Or.inl rfl) rfl rfl (Or.inl rfl) rfl (by decide) (by decide) rfl
    (by decide) "n" "" "" "" "文本" "文件" []

/-- Claim C5: when the classification call returns `None` and
`force_manual = false`, escalation is mandatory: the final result is
exactly the manual-review result, and no other source is consulted. -/
theorem c5_none_escalates (confirm met ms mh t f : String)
    (existing : List String) :
    ∃ nm, process_file_with_ai false none confirm met ms mh t f existing =
      .ok (manual_intervention met ms mh) .manual false nm := by
  obtain ⟨s, hs⟩ :=
    buildName_fields (manual_intervention met ms mh) _ _ _ rfl rfl rfl
  refine ⟨resolveName existing s, ?_⟩
  simp only [process_file_with_ai,
    show escalationPhase false none confirm = .ok true false from rfl,
    show ∀ rres, finalDispatch true none (manual_intervention met ms mh) rres =
      (FinalChoice.manual, manual_intervention met ms mh) from fun _ => rfl,
    hs]

/-- Claim C6 counterexample: the AI response parsed as the JSON object
`{"confidence": 0.8}` is accepted (confidence ≥ 0.7, no manual review),
but the name construction reads `final_result['exam_type']` by direct
indexing, so the missing key raises `KeyError` and the per-file
processing fails instead of building a name from safe defaults. -/
theorem c6_counterexample :
    process_file_with_ai false
      (some (.dict [("confidence", .jnum (mkRat 4 5))]))
      "" "" "" "" "文本" "文件" [] = .keyError "exam_type" := by
  decide

/-- Claim C6 amended: `confidence` is read with a safe default (a dict
missing it is treated as confidence 0 at the escalation check), but the
output-name construction reads `exam_type`, `semester` and `has_answer`
by direct indexing: an accepted AI result missing one of those keys
raises `KeyError` (caught only at the caller's per-file boundary), while
a result carrying all three builds the name successfully even with
`confidence` and `reasoning` absent. -/
theorem c6_amended_direct_indexing (d : List (String × JVal)) :
    (dictGet d "confidence" = none →
      ∀ confirm_input : String,
        escalationPhase false (some (.dict d)) confirm_input =
          (if pyLower (pyStrip confirm_input) = "y" then .ok true true
           else .ok false true)) ∧
    (dictGet d "exam_type" = none → buildName d = .error "exam_type") ∧
    ∀ et sem ha : JVal,
      dictGet d "exam_type" = some et →
      dictGet d "semester" = some sem →
      dictGet d "has_answer" = some ha →
      ∃ s, buildName d = .ok s := by
  refine ⟨?_, ?_, fun et sem ha h1 h2 h3 => buildName_fields d et sem ha h1 h2 h3⟩
  · intro hnone confirm_input
    rw [escalation_dict, hnone]
    simp only [Option.getD_none]
    rw [if_pos (by decide : (0 : ℚ) < mkRat 7 10)]
  · intro hnone
    simp only [buildName, hnone]

/-- Witness for the amended C6: a dict with only `confidence` defaults the
escalation check, a dict without `exam_type` raises `KeyError`, and a
dict with exactly the three name fields builds a name. -/
theorem c6_amended_witness :
    escalationPhase false (some (.dict [("exam_type", JVal.jstr "期末")])) "n" =
      (if pyLower (pyStrip "n") = "y" then .ok true true else .ok false true) ∧
    buildName [("confidence", JVal.jnum (mkRat 4 5))] = .error "exam_type" ∧
    ∃ s, buildName [("exam_type", JVal.jstr "期末"),
      ("semester", JVal.jstr "2023"), ("has_answer", JVal.jstr "无答案")] =
      .ok s :=
  ⟨(c6_amended_direct_indexing [("exam_type", JVal.jstr "期末")]).1 rfl "n",
   (c6_amended_direct_indexing [("confidence", JVal.jnum (mkRat 4 5))]).2.1 rfl,
   (c6_amended_direct_indexing [("exam_type", JVal.jstr "期末"),
      ("semester", JVal.jstr "2023"), ("has_answer", JVal.jstr "无答案")]).2.2
     (JVal.jstr "期末") (JVal.jstr "2023") (JVal.jstr "无答案") rfl rfl rfl⟩

/-- Claim C3 counterexample: with `force_manual = false`, an AI result
that is present but not a well-formed five-field record — the empty JSON
object `{}` — does not escalate to the manual-review prompt when the user
declines the low-confidence confirmation: `ai_result and isinstance(...)`
finds the empty dict falsy and the pipeline silently takes the
rule-engine fallback even though an AI result was produced. -/
theorem c3_counterexample :
    process_file_with_ai false (some (.dict [])) "n" "" "" "" "文本" "文件" [] =
      .ok (fallback_rule_engine "文本" "文件") .rule true
        "期末-未知学期-无答案.pdf" := by
  decide

/-- Claim C3 amended: with `force_manual = false`, a present *non-dict*
AI value always escalates to the manual-review prompt; for a present
dict, the rule-engine fallback is taken exactly when the dict is empty
(falsy in Python) and the user declines the low-confidence confirmation —
every other present dict ends in the AI result or the manual result. -/
theorem c3_amended_dispatch (confirm met ms mh t f : String)
    (existing : List String) :
    (∃ nm, process_file_with_ai false (some .nondict) confirm met ms mh t f
      existing = .ok (manual_intervention met ms mh) .manual false nm) ∧
    ∀ (d fin : List (String × JVal)) (ch : FinalChoice) (ask : Bool)
        (nm : String),
      process_file_with_ai false (some (.dict d)) confirm met ms mh t f
        existing = .ok fin ch ask nm →
      (ch = .rule ↔ d = [] ∧ pyLower (pyStrip confirm) ≠ "y") := by
  constructor
  · obtain ⟨s, hs⟩ :=
      buildName_fields (manual_intervention met ms mh) _ _ _ rfl rfl rfl
    refine ⟨resolveName existing s, ?_⟩
    simp only [process_file_with_ai,
      show escalationPhase false (some .nondict) confirm = .ok true false
        from rfl,
      show ∀ rres, finalDispatch true (some .nondict)
          (manual_intervention met ms mh) rres =
        (FinalChoice.manual, manual_intervention met ms mh) from fun _ => rfl,
      hs]
  · intro d fin ch ask nm hproc
    cases hcv : (dictGet d "confidence").getD (.jnum 0) with
    | jstr s =>
      have hte : process_file_with_ai false (some (.dict d)) confirm met ms mh
          t f existing = .typeError := by
        simp only [process_file_with_ai, escalation_dict, hcv]
      rw [hte] at hproc
      cases hproc
    | jnum q =>
      by_cases hlt : q < mkRat 7 10
      · by_cases hy : pyLower (pyStrip confirm) = "y"
        · -- user confirms: manual review
          obtain ⟨s, hs⟩ :=
            buildName_fields (manual_intervention met ms mh) _ _ _ rfl rfl rfl
          have hesc : escalationPhase false (some (.dict d)) confirm =
              .ok true true := by
            simp only [escalation_dict, hcv]
            rw [if_pos hlt, if_pos hy]
          have hp : process_file_with_ai false (some (.dict d)) confirm met ms
              mh t f existing = .ok (manual_intervention met ms mh) .manual
              true (resolveName existing s) := by
            simp only [process_file_with_ai, hesc,
              show ∀ rres, finalDispatch true (some (.dict d))
                  (manual_intervention met ms mh) rres =
                (FinalChoice.manual, manual_intervention met ms mh)
                from fun _ => rfl, hs]
          obtain ⟨_, hch, _, _⟩ := ProcOut.ok.inj (hp.symm.trans hproc)
          subst hch
          simp [hy]
        · -- user declines: use_manual stays false
          have hesc : escalationPhase false (some (.dict d)) confirm =
              .ok false true := by
            simp only [escalation_dict, hcv]
            rw [if_pos hlt, if_neg hy]
          by_cases hd : d = []
          · subst hd
            obtain ⟨s, hs⟩ :=
              buildName_fields (fallback_rule_engine t f) _ _ _ rfl rfl rfl
            have hp : process_file_with_ai false (some (.dict [])) confirm met
                ms mh t f existing = .ok (fallback_rule_engine t f) .rule true
                (resolveName existing s) := by
              simp only [process_file_with_ai, hesc,
                show ∀ mres, finalDispatch false (some (.dict []))
                    mres (fallback_rule_engine t f) =
                  (FinalChoice.rule, fallback_rule_engine t f)
                  from fun _ => rfl, hs]
            obtain ⟨_, hch, _, _⟩ := ProcOut.ok.inj (hp.symm.trans hproc)
            subst hch
            simp [hy]
          · have hdf : d.isEmpty = false := by
              cases d with
              | nil => exact absurd rfl hd
              | cons a l => rfl
            have hdisp : ∀ mres rres, finalDispatch false (some (.dict d))
                mres rres = (.ai, d) := by
              intro mres rres
              simp only [finalDispatch, hdf, Bool.false_eq_true, if_false]
            cases hb : buildName d with
            | error k =>
              have hp : process_file_with_ai false (some (.dict d)) confirm
                  met ms mh t f existing = .keyError k := by
                simp only [process_file_with_ai, hesc, hdisp, hb]
              rw [hp] at hproc
              cases hproc
            | ok s =>
              have hp : process_file_with_ai false (some (.dict d)) confirm
                  met ms mh t f existing = .ok d .ai true
                  (resolveName existing s) := by
                simp only [process_file_with_ai, hesc, hdisp, hb]
              obtain ⟨_, hch, _, _⟩ := ProcOut.ok.inj (hp.symm.trans hproc)
              subst hch
              simp [hd]
      · -- confidence at or above the threshold: AI result accepted
        have hesc : escalationPhase false (some (.dict d)) confirm =
            .ok false false := by
          simp only [escalation_dict, hcv]
          rw [if_neg hlt]
        by_cases hd : d = []
        · subst hd
          rw [show (dictGet ([] : List (String × JVal))
            "confidence").getD (.jnum 0) = .jnum 0 from rfl] at hcv
          obtain hq := (JVal.jnum.inj hcv).symm
          subst hq
          exact absurd (by decide : (0 : ℚ) < mkRat 7 10) hlt
        · have hdf : d.isEmpty = false := by
            cases d with
            | nil => exact absurd rfl hd
            | cons a l => rfl
          have hdisp : ∀ mres rres, finalDispatch false (some (.dict d))
              mres rres = (.ai, d) := by
            intro mres rres
            simp only [finalDispatch, hdf, Bool.false_eq_true, if_false]
          cases hb : buildName d with
          | error k =>
            have hp : process_file_with_ai false (some (.dict d)) confirm met
                ms mh t f existing = .keyError k := by
              simp only [process_file_with_ai, hesc, hdisp, hb]
            rw [hp] at hproc
            cases hproc
          | ok s =>
            have hp : process_file_with_ai false (some (.dict d)) confirm met
                ms mh t f existing = .ok d .ai false
                (resolveName existing s) := by
              simp only [process_file_with_ai, hesc, hdisp, hb]
            obtain ⟨_, hch, _, _⟩ := ProcOut.ok.inj (hp.symm.trans hproc)
            subst hch
            simp [hd]

/-- Witness for the amended C3: at the empty dict with a declining user,
the hypothesis of the dispatch characterisation is discharged by
computation. -/
theorem c3_amended_witness :
    FinalChoice.rule = FinalChoice.rule ↔
      ([] : List (String × JVal)) = [] ∧ pyLower (pyStrip "n") ≠ "y" :=
  (c3_amended_dispatch "n" "" "" "" "文本" "文件" []).2 []
    (fallback_rule_engine "文本" "文件") .rule true "期末-未知学期-无答案.pdf"
    (by decide)

end AiRename
